import Mathlib

/-!
Verification development for the SpeedTake audio-extraction controller.

The repository consists of `src/controller.py` (the shared backend
`SpeedTakeController`) and `src/audio.py` (the Tk front-end `SpeedTakeGUI`,
which carries its own copy of the batch loop plus the remote-download
resolver).  This file shallowly embeds the controller-relevant parts:

* filesystem paths are normalized POSIX-style strings (no duplicate or
  trailing slashes), and `pathName` / `nameSuffix` / `nameStem` /
  `pathParent` / `joinPath` mirror the corresponding `pathlib.Path`
  accessors on such strings;
* external effects (the filesystem, the `subprocess.run` call on the
  transcoder, the `yt_dlp` downloader, `tempfile.mkdtemp`) are oracles
  passed in explicitly, so every run of the embedded code is a pure
  function of the oracle;
* Python exceptions become `Except` / explicit outcome values; a raising
  method that leaves `self` untouched is embedded as returning the input
  state unchanged alongside the error.
-/

namespace SpeedTake

/-! ## Path model (embedding of the `pathlib.Path` accessors used) -/

/-- Index of the last occurrence of `c`, mirroring Python `str.rfind`. -/
def rfindChar (c : Char) : List Char → Option Nat
  | [] => none
  | x :: xs =>
    match rfindChar c xs with
    | some i => some (i + 1)
    | none => if x = c then some 0 else none

/-- `Path(p).name`: the final path component. -/
def pathName (p : String) : String :=
  match rfindChar '/' p.toList with
  | none => p
  | some i => ⟨p.toList.drop (i + 1)⟩

/-- `Path(p).suffix` computed from the final component `n`:
`n[i:]` for `i = n.rfind('.')` when `0 < i < len(n) - 1`, else `""`. -/
def nameSuffix (n : String) : String :=
  match rfindChar '.' n.toList with
  | none => ""
  | some i => if 0 < i ∧ i < n.length - 1 then ⟨n.toList.drop i⟩ else ""

/-- `Path(p).stem` computed from the final component `n`. -/
def nameStem (n : String) : String :=
  match rfindChar '.' n.toList with
  | none => n
  | some i => if 0 < i ∧ i < n.length - 1 then ⟨n.toList.take i⟩ else n

/-- `Path(p).suffix`. -/
def pathSuffix (p : String) : String :=
  nameSuffix (pathName p)

/-- `Path(p).stem`. -/
def pathStem (p : String) : String :=
  nameStem (pathName p)

/-- `Path(p).parent` on a normalized path string. -/
def pathParent (p : String) : String :=
  match rfindChar '/' p.toList with
  | none => "."
  | some 0 => "/"
  | some i => ⟨p.toList.take i⟩

/-- `str(Path(d) / n)` on normalized strings (pathlib drops a `"."` base). -/
def joinPath (d n : String) : String :=
  if d = "." then n
  else if d = "/" then "/" ++ n
  else d ++ "/" ++ n

/-- Python `str.lower()` (ASCII case folding, character by character). -/
def strLower (s : String) : String :=
  ⟨s.toList.map Char.toLower⟩

/-- Python `str.strip()`: drop leading and trailing whitespace. -/
def strStrip (s : String) : String :=
  ⟨((s.toList.dropWhile Char.isWhitespace).reverse.dropWhile
      Char.isWhitespace).reverse⟩

/-! ## Controller data model (`src/controller.py`) -/

/-- `SpeedTakeController.VIDEO_EXTENSIONS`. -/
def VIDEO_EXTENSIONS : List String :=
  [".mp4", ".avi", ".mkv", ".mov", ".wmv", ".flv", ".webm", ".m4v"]

/-- `SpeedTakeController.AUDIO_CODECS`, as an association list. -/
def AUDIO_CODECS : List (String × String) :=
  [("mp3", "libmp3lame"), ("wav", "pcm_s16le"), ("flac", "flac"), ("aac", "aac")]

/-- The mutable fields of `SpeedTakeController`. -/
structure ControllerState where
  selected_files : List String
  output_format : String
  output_folder : Option String
  ffmpeg_path : Option String
  deriving Repr, DecidableEq

/-- `SpeedTakeController.__init__`. -/
def initialState : ControllerState :=
  { selected_files := [], output_format := "mp3", output_folder := none,
    ffmpeg_path := none }

/-- Errors raised by the controller (`FileNotFoundError`, `ValueError`,
`RuntimeError("FFmpeg is not configured.")`). -/
inductive ControllerError where
  | ffmpegNotConfigured : ControllerError
  | folderNotFound : String → ControllerError
  | unsupportedFormat : String → ControllerError
  deriving Repr, DecidableEq

/-- The loop body of `SpeedTakeController.add_files` (the membership test
runs against the queue as already extended by earlier iterations). -/
def add_files_go (sel new : List String) : List String → List String × List String
  | [] => (sel, new)
  | f :: rest =>
    if f ∈ sel then add_files_go sel new rest
    else add_files_go (sel ++ [f]) (new ++ [f]) rest

/-- `SpeedTakeController.add_files`: appends each path not already present
and returns the new additions.  `str(file)` is the identity on the string
paths modeled here. -/
def add_files (st : ControllerState) (files : List String) :
    ControllerState × List String :=
  let (sel, new) := add_files_go st.selected_files [] files
  ({ st with selected_files := sel }, new)

/-- Oracle for the two filesystem operations `add_folder` performs:
`Path(folder).exists()` and `[str(p) for p in Path(folder).glob("**/*")]`. -/
structure FileSystem where
  dirExists : String → Bool
  glob : String → List String

/-- The filter `path.suffix.lower() in VIDEO_EXTENSIONS` from `add_folder`. -/
def is_video_file (p : String) : Bool :=
  VIDEO_EXTENSIONS.contains (strLower (pathSuffix p))

/-- `SpeedTakeController.add_folder`.  A raising call returns the state
unchanged alongside the error, matching a Python exception leaving `self`
untouched. -/
def add_folder (fs : FileSystem) (st : ControllerState) (folder : String) :
    ControllerState × Except ControllerError (List String × Nat) :=
  if folder = "" then (st, .ok ([], 0))
  else if fs.dirExists folder = false then
    (st, .error (.folderNotFound folder))
  else
    let video_files := (fs.glob folder).filter is_video_file
    let (st2, new) := add_files st video_files
    (st2, .ok (new, video_files.length))

/-- `SpeedTakeController.clear_files`. -/
def clear_files (st : ControllerState) : ControllerState :=
  { st with selected_files := [] }

/-- `SpeedTakeController.set_output_format`: rejects a format that is not a
key of `AUDIO_CODECS`, leaving the state unchanged; otherwise stores it. -/
def set_output_format (st : ControllerState) (fmt : String) :
    ControllerState × Except ControllerError Unit :=
  if (AUDIO_CODECS.lookup fmt).isNone then
    (st, .error (.unsupportedFormat fmt))
  else
    ({ st with output_format := fmt }, .ok ())

/-! ## Controller batch extraction (`SpeedTakeController.extract_audio_files`) -/

/-- Container mirroring the `ExtractionResult` dataclass. -/
structure ExtractionResult where
  success_count : Nat
  total_files : Nat
  last_output_path : Option String
  errors : List String
  deriving Repr, DecidableEq

/-- Outcome of one `subprocess.run` call on the transcoder: either the
process completed with a return code and captured stderr, or the call
itself raised (e.g. the binary vanished). -/
inductive RunOutcome where
  | completed : Int → String → RunOutcome
  | raised : String → RunOutcome

/-- Per-item oracle: `mkdirFails = some msg` models an exception raised in
the item's `try` block before the transcoder runs (`mkdir`, etc.); `run`
gives the outcome of `subprocess.run` on the exact argument list passed. -/
structure ItemEnv where
  mkdirFails : Option String
  run : List String → RunOutcome

/-- The command list built per item:
`[ffmpeg, "-i", input, "-vn", "-y"] (+ ["-acodec", codec] if found) + [output]`. -/
def build_cmd (ffmpeg input_path fmt output_file : String) : List String :=
  let cmd := [ffmpeg, "-i", input_path, "-vn", "-y"]
  let cmd := match AUDIO_CODECS.lookup fmt with
    | some codec => cmd ++ ["-acodec", codec]
    | none => cmd
  cmd ++ [output_file]

/-- The output path per item: destination directory (user folder if set,
else the input's parent) joined with `stem + "." + format`. -/
def output_file_path (output_dir : Option String) (input_file fmt : String) :
    String :=
  let destination_dir := output_dir.getD (pathParent input_file)
  joinPath destination_dir (pathStem input_file ++ "." ++ fmt)

/-- Classification of one item: a successful transcode carries the output
path, any failure carries the error string appended to `errors`. -/
inductive ItemOutcome where
  | success : String → ItemOutcome
  | failure : String → ItemOutcome
  deriving Repr, DecidableEq

/-- The body of the controller's per-item `try/except`: an early exception
or a raising `subprocess.run` is caught and recorded as
`f"{input_file}: {exc}"`; a completed run with nonzero code records
`f"{input_file}: {stderr or fallback}"`; exit code 0 is a success. -/
def process_item (ffmpeg fmt : String) (output_dir : Option String)
    (env : ItemEnv) (input_file : String) : ItemOutcome :=
  match env.mkdirFails with
  | some msg => .failure (input_file ++ ": " ++ msg)
  | none =>
    let output_file := output_file_path output_dir input_file fmt
    match env.run (build_cmd ffmpeg input_file fmt output_file) with
    | .raised msg => .failure (input_file ++ ": " ++ msg)
    | .completed rc stderr =>
      if rc = 0 then .success output_file
      else
        let message :=
          if stderr = "" then "FFmpeg exited with code " ++ toString rc
          else stderr
        .failure (input_file ++ ": " ++ message)

/-- The `for index, input_file in enumerate(..., start=1)` loop,
accumulating `(success_count, last_output_path, errors)`. -/
def extract_go (ffmpeg fmt : String) (output_dir : Option String)
    (env : Nat → ItemEnv) :
    Nat → Nat × Option String × List String → List String →
      Nat × Option String × List String
  | _, acc, [] => acc
  | idx, (cnt, last, errs), f :: rest =>
    match process_item ffmpeg fmt output_dir (env idx) f with
    | .success out =>
      extract_go ffmpeg fmt output_dir env (idx + 1) (cnt + 1, some out, errs) rest
    | .failure e =>
      extract_go ffmpeg fmt output_dir env (idx + 1) (cnt, last, errs ++ [e]) rest

/-- `Path(self.output_folder) if self.output_folder else None`:
Python truthiness also discards an empty string. -/
def effective_output_dir (st : ControllerState) : Option String :=
  match st.output_folder with
  | some f => if f = "" then none else some f
  | none => none

/-- `SpeedTakeController.extract_audio_files`.  An empty queue returns an
empty result before the tool check; a missing transcoder raises
`RuntimeError`; otherwise every queued file is processed in order.  The
method reads but never mutates the controller state. -/
def extract_audio_files (st : ControllerState) (env : Nat → ItemEnv) :
    Except ControllerError ExtractionResult :=
  let total_files := st.selected_files.length
  if total_files = 0 then .ok ⟨0, 0, none, []⟩
  else
    match st.ffmpeg_path with
    | none => .error .ffmpegNotConfigured
    | some ffmpeg =>
      let output_dir := effective_output_dir st
      let acc := extract_go ffmpeg st.output_format output_dir env 1
        (0, none, []) st.selected_files
      .ok ⟨acc.1, total_files, acc.2.1, acc.2.2⟩

/-! ## Specification-side helpers used to state the claims -/

/-- Keeps the first occurrence of each path not already in `seen`: the list
of records `add_files` actually appends. -/
def firstSeen (seen : List String) : List String → List String
  | [] => []
  | p :: rest =>
    if p ∈ seen then firstSeen seen rest
    else p :: firstSeen (seen ++ [p]) rest

/-- Runs a sequence of `add_files` calls, collecting each call's return. -/
def run_add_calls (st : ControllerState) :
    List (List String) → ControllerState × List (List String)
  | [] => (st, [])
  | files :: rest =>
    let (st1, new) := add_files st files
    let (stF, rets) := run_add_calls st1 rest
    (stF, new :: rets)

/-- The per-item outcomes of a batch, in queue order. -/
def item_outcomes (ffmpeg fmt : String) (output_dir : Option String)
    (env : Nat → ItemEnv) : Nat → List String → List ItemOutcome
  | _, [] => []
  | idx, f :: rest =>
    process_item ffmpeg fmt output_dir (env idx) f
      :: item_outcomes ffmpeg fmt output_dir env (idx + 1) rest

/-- Output paths of the successful items, in order. -/
def successPaths : List ItemOutcome → List String
  | [] => []
  | .success p :: rest => p :: successPaths rest
  | .failure _ :: rest => successPaths rest

/-- Error strings of the failed items, in order. -/
def failuresOf : List ItemOutcome → List String
  | [] => []
  | .success _ :: rest => failuresOf rest
  | .failure e :: rest => e :: failuresOf rest

/-! ## GUI front-end model (`src/audio.py`, controller-relevant parts) -/

/-- The dictionary-shaped records the GUI queues: `{"type": "file", ...}`
or `{"type": "url", ...}`. -/
inductive GuiRecord where
  | file : String → GuiRecord
  | url : String → GuiRecord
  deriving Repr, DecidableEq

/-- `SpeedTakeGUI._record_exists`: same type tag and equal normalized
path / equal URL string. -/
def record_exists (sel : List GuiRecord) (r : GuiRecord) : Bool :=
  sel.any fun ex =>
    match ex, r with
    | .file p, .file q => p == q
    | .url u, .url v => u == v
    | _, _ => false

/-- Result of `urlparse` restricted to the two fields the code reads. -/
structure ParsedUrl where
  scheme : String
  netloc : String
  deriving Repr, DecidableEq

/-- Splits a URL at the first `"://"`, yielding the scheme part and the
remainder, or `none` when no authority marker is present (in which case
`urlparse` yields an empty netloc and validation fails anyway). -/
def schemeSplit : List Char → Option (List Char × List Char)
  | [] => none
  | ':' :: '/' :: '/' :: rest => some ([], rest)
  | c :: rest =>
    match schemeSplit rest with
    | some (sch, after) => some (c :: sch, after)
    | none => none

/-- `urllib.parse.urlparse`, restricted to scheme and netloc of a URL of
the shape `scheme://host[/?#]...`: the scheme is lowercased, the netloc is
delimited by the next `/`, `?` or `#`. -/
def urlparse (url : String) : ParsedUrl :=
  match schemeSplit url.toList with
  | none => { scheme := "", netloc := "" }
  | some (sch, rest) =>
    { scheme := strLower (String.mk sch),
      netloc := String.mk (rest.takeWhile fun c => !(c == '/' || c == '?' || c == '#')) }

/-- `pat` occurs as a contiguous substring (Python `pat in s`). -/
def containsAux (pat : List Char) : List Char → Bool
  | [] => pat.isEmpty
  | c :: rest => pat.isPrefixOf (c :: rest) || containsAux pat rest

/-- Python `pat in s` on strings. -/
def strContains (s pat : String) : Bool :=
  containsAux pat.toList s.toList

/-- `SpeedTakeGUI._is_valid_youtube_url`: scheme must be http/https, the
netloc non-empty, and the lowercased netloc must contain `"youtube.com"`
or `"youtu.be"`. -/
def is_valid_youtube_url (url : String) : Bool :=
  let parsed := urlparse url
  if !(parsed.scheme == "http" || parsed.scheme == "https") || parsed.netloc == ""
  then false
  else
    let domain := strLower parsed.netloc
    strContains domain "youtube.com" || strContains domain "youtu.be"

/-- How `add_youtube_link` disposed of the entered URL. -/
inductive AddLinkResult where
  | invalid : AddLinkResult
  | duplicate : AddLinkResult
  | added : AddLinkResult
  deriving Repr, DecidableEq

/-- `SpeedTakeGUI.add_youtube_link` for a URL string returned by the
dialog: strip it, reject it if invalid (queue untouched), else append
unless a duplicate already exists. -/
def add_youtube_link (sel : List GuiRecord) (url0 : String) :
    List GuiRecord × AddLinkResult :=
  let url := strStrip url0
  if !is_valid_youtube_url url then (sel, .invalid)
  else
    let r := GuiRecord.url url
    if !record_exists sel r then (sel ++ [r], .added)
    else (sel, .duplicate)

/-- Downloader oracle outcome for one `YoutubeDL.extract_info` call:
`finished filepath ex` means the call returned info locating `filepath`,
which exists on disk iff `ex`; `noInfo` models a falsy info dict;
`raised` models the downloader raising. -/
inductive DlOutcome where
  | finished : String → Bool → DlOutcome
  | noInfo : DlOutcome
  | raised : String → DlOutcome

/-- Oracle for one download attempt: the fresh directory name
`tempfile.mkdtemp` would create, and the downloader outcome. -/
structure DlEnv where
  mkdtemp : String
  outcome : DlOutcome

/-- `SpeedTakeGUI.download_youtube_audio`, over the set of existing
directories `dirs`.  With no user `output_dir` a scratch directory is
created; on downloader failure or an unlocatable file the scratch
directory is removed again and the error (the `RuntimeError` the code
raises) is returned; on success the downloaded path is returned and the
scratch directory is left for the item's cleanup step. -/
def download_youtube_audio (env : DlEnv) (output_dir : Option String)
    (dirs : List String) : Except String String × List String :=
  let destination_dir := output_dir.getD env.mkdtemp
  let dirs1 := if destination_dir ∈ dirs then dirs else dirs ++ [destination_dir]
  let scrub := fun (ds : List String) =>
    if output_dir.isNone then ds.filter (fun d => d != destination_dir) else ds
  match env.outcome with
  | .raised msg =>
    (.error ("Failed to download YouTube audio: " ++ msg), scrub dirs1)
  | .noInfo =>
    (.error ("Failed to download YouTube audio: No information returned from YouTube download."),
     scrub dirs1)
  | .finished filepath ex =>
    if ex then (.ok filepath, dirs1)
    else (.error "The downloaded audio file could not be located.", scrub dirs1)

/-- Per-item oracle for a GUI url record: the download attempt, a possible
exception before the transcoder runs (`mkdir`, etc.), and the transcoder
process outcome. -/
structure UrlItemEnv where
  dl : DlEnv
  mkdirFails : Option String
  run : List String → RunOutcome

/-- Observable outcome of one url item of `SpeedTakeGUI.extract_audio_files`:
whether it contributed a success, the output it produced, the error status
lines it emitted, and the directories existing afterwards. -/
structure UrlItemResult where
  succeeded : Bool
  output_path : Option String
  error_events : List String
  dirs : List String
  deriving Repr, DecidableEq

/-- The loop body of `SpeedTakeGUI.extract_audio_files` for a
`{"type": "url"}` record.  A failing download propagates to the item's
`except` block (one error status line; the `finally` block has nothing to
clean since `temp_download_path` is still unset).  After a successful
download the `finally` block always releases the download: it removes the
file and, when no user destination was given, the scratch directory. -/
def gui_url_item (ffmpeg fmt url : String) (output_dir : Option String)
    (env : UrlItemEnv) (cwd : String) (dirs : List String) : UrlItemResult :=
  match download_youtube_audio env.dl output_dir dirs with
  | (.error msg, dirs1) =>
    { succeeded := false, output_path := none,
      error_events := ["Error processing " ++ url ++ ": " ++ msg], dirs := dirs1 }
  | (.ok filepath, dirs1) =>
    let cleanup := fun (ds : List String) =>
      if output_dir.isNone then ds.filter (fun d => d != env.dl.mkdtemp) else ds
    match env.mkdirFails with
    | some msg =>
      { succeeded := false, output_path := none,
        error_events := ["Error processing " ++ url ++ ": " ++ msg],
        dirs := cleanup dirs1 }
    | none =>
      let out_path := output_dir.getD cwd
      let dirs2 := if out_path ∈ dirs1 then dirs1 else dirs1 ++ [out_path]
      let output_file := joinPath out_path (pathStem filepath ++ "." ++ fmt)
      match env.run (build_cmd ffmpeg filepath fmt output_file) with
      | .raised msg =>
        { succeeded := false, output_path := none,
          error_events := ["Error processing " ++ url ++ ": " ++ msg],
          dirs := cleanup dirs2 }
      | .completed rc stderr =>
        if rc = 0 then
          { succeeded := true, output_path := some output_file,
            error_events := [], dirs := cleanup dirs2 }
        else
          { succeeded := false, output_path := none,
            error_events := ["Error processing " ++ url ++ ": "
              ++ (if strStrip stderr = "" then "Unknown FFmpeg error"
                  else strStrip stderr)],
            dirs := cleanup dirs2 }

/-! ## Concrete fixtures used by witnesses and counterexamples -/

/-- Environment in which every transcoder invocation succeeds. -/
def trivialEnv : Nat → ItemEnv :=
  fun _ => { mkdirFails := none, run := fun _ => .completed 0 "" }

/-- Non-empty queue but no transcoder binary located. -/
def c1NoToolState : ControllerState :=
  { selected_files := ["a.mp4"], output_format := "mp3", output_folder := none,
    ffmpeg_path := some "ffmpeg" }

/-- Same queue with the probe never run (`ffmpeg_path` still `None`). -/
def c1NoToolStateUnprobed : ControllerState :=
  { c1NoToolState with ffmpeg_path := none }

/-- Two queued files, transcoder configured. -/
def c2State : ControllerState :=
  { selected_files := ["/v/a.mp4", "/v/b.mp4"], output_format := "mp3",
    output_folder := none, ffmpeg_path := some "ffmpeg" }

/-- The first item's transcoder call raises, the second succeeds. -/
def c2Env : Nat → ItemEnv := fun idx =>
  { mkdirFails := none,
    run := fun _ => if idx = 1 then .raised "boom" else .completed 0 "" }

/-- Three queued local files, transcoder configured, no output folder. -/
def c3State : ControllerState :=
  { selected_files := ["/videos/a.mp4", "/videos/b.mp4", "/videos/c.mp4"],
    output_format := "mp3", output_folder := none, ffmpeg_path := some "ffmpeg" }

/-- The transcoder exits 0 on items 1 and 3 and exits 1 on item 2. -/
def c3Env : Nat → ItemEnv := fun idx =>
  { mkdirFails := none,
    run := fun _ =>
      if idx = 2 then .completed 1 "conversion failed" else .completed 0 "" }

/-- A filesystem on which every folder (the empty string included, as
`Path("")` denotes the current directory) exists and contains one
allow-listed video file. -/
def c5Fs : FileSystem :=
  { dirExists := fun _ => true, glob := fun _ => ["clip.mp4"] }

/-- A filesystem with one folder `vids` holding two videos and a text file. -/
def c5WitnessFs : FileSystem :=
  { dirExists := fun d => d == "vids",
    glob := fun _ => ["vids/a.mp4", "vids/notes.txt", "vids/b.MKV"] }

/-- Transcoder exits 1 with empty captured stderr. -/
def c7Env : ItemEnv := { mkdirFails := none, run := fun _ => .completed 1 "" }

/-- Transcoder exits 1 with stderr `"bad"`. -/
def c7WEnv : ItemEnv := { mkdirFails := none, run := fun _ => .completed 1 "bad" }

/-- A url item whose download attempt raises. -/
def c9Env : UrlItemEnv :=
  { dl := { mkdtemp := "/tmp/speedtake_yt_1", outcome := .raised "network down" },
    mkdirFails := none, run := fun _ => .completed 0 "" }

/-- Two queued files; item 1 fails with exit code 2, item 2 succeeds. -/
def c10State : ControllerState :=
  { selected_files := ["x.mp4", "y.mp4"], output_format := "wav",
    output_folder := none, ffmpeg_path := some "ffmpeg" }

/-- Per-item outcomes for `c10State`. -/
def c10Env : Nat → ItemEnv := fun idx =>
  { mkdirFails := none,
    run := fun _ => if idx = 1 then .completed 2 "oops" else .completed 0 "" }

/-! ## Helper lemmas (shared) -/

/-- The `add_files` loop appends exactly the paths not yet seen, in first
occurrence order, both to the queue and to the returned list. -/
theorem add_files_go_spec :
    ∀ (files sel new : List String),
      add_files_go sel new files
        = (sel ++ firstSeen sel files, new ++ firstSeen sel files)
  | [], sel, new => by simp [add_files_go, firstSeen]
  | f :: rest, sel, new => by
    by_cases h : f ∈ sel
    · simp only [add_files_go, firstSeen, if_pos h]
      exact add_files_go_spec rest sel new
    · simp only [add_files_go, firstSeen, if_neg h]
      rw [add_files_go_spec rest (sel ++ [f]) (new ++ [f])]
      simp

/-- Closed form of one `add_files` call. -/
theorem add_files_spec (st : ControllerState) (files : List String) :
    add_files st files
      = ({ st with
            selected_files := st.selected_files ++ firstSeen st.selected_files files },
         firstSeen st.selected_files files) := by
  simp [add_files, add_files_go_spec]

/-- Everything `firstSeen` keeps was absent from `seen`. -/
theorem not_mem_of_mem_firstSeen :
    ∀ (l seen : List String) (x : String), x ∈ firstSeen seen l → x ∉ seen
  | [], _, _ => by simp [firstSeen]
  | p :: rest, seen, x => by
    by_cases h : p ∈ seen
    · simp only [firstSeen, if_pos h]
      exact not_mem_of_mem_firstSeen rest seen x
    · simp only [firstSeen, if_neg h]
      intro hx
      rcases List.mem_cons.mp hx with rfl | hx2
      · exact h
      · intro hseen
        exact not_mem_of_mem_firstSeen rest (seen ++ [p]) x hx2
          (List.mem_append_left _ hseen)

/-- `firstSeen` never keeps a path twice. -/
theorem nodup_firstSeen : ∀ (l seen : List String), (firstSeen seen l).Nodup
  | [], _ => by simp [firstSeen]
  | p :: rest, seen => by
    by_cases h : p ∈ seen
    · simp only [firstSeen, if_pos h]
      exact nodup_firstSeen rest seen
    · simp only [firstSeen, if_neg h]
      refine List.nodup_cons.mpr ⟨?_, nodup_firstSeen rest (seen ++ [p])⟩
      intro hp
      exact not_mem_of_mem_firstSeen rest (seen ++ [p]) p hp
        (List.mem_append_right _ (List.mem_singleton_self p))

/-- Appending the kept paths preserves queue dedup. -/
theorem nodup_append_firstSeen (sel l : List String) (h : sel.Nodup) :
    (sel ++ firstSeen sel l).Nodup := by
  refine List.nodup_append.mpr ⟨h, nodup_firstSeen l sel, ?_⟩
  intro x hx hx2
  exact not_mem_of_mem_firstSeen l sel x hx2 hx

/-- `firstSeen` distributes over concatenated batches of paths. -/
theorem firstSeen_append :
    ∀ (l1 l2 seen : List String),
      firstSeen seen (l1 ++ l2)
        = firstSeen seen l1 ++ firstSeen (seen ++ firstSeen seen l1) l2
  | [], l2, seen => by simp [firstSeen]
  | f :: l1, l2, seen => by
    by_cases h : f ∈ seen
    · simp only [List.cons_append, firstSeen, if_pos h]
      exact firstSeen_append l1 l2 seen
    · simp only [List.cons_append, firstSeen, if_neg h, List.append_eq]
      rw [firstSeen_append l1 l2 (seen ++ [f])]
      simp [List.append_assoc]

/-- Closed form of a whole sequence of `add_files` calls: the final queue
is the initial queue followed by the concatenation of all returns, and
that concatenation keeps exactly the first occurrence of each new path. -/
theorem run_add_calls_spec :
    ∀ (calls : List (List String)) (st : ControllerState),
      (run_add_calls st calls).1.selected_files
          = st.selected_files ++ ((run_add_calls st calls).2).flatten
      ∧ ((run_add_calls st calls).2).flatten
          = firstSeen st.selected_files calls.flatten
  | [], st => by simp [run_add_calls, firstSeen]
  | files :: rest, st => by
    obtain ⟨h1, h2⟩ := run_add_calls_spec rest (add_files st files).1
    have hsel : (add_files st files).1.selected_files
        = st.selected_files ++ firstSeen st.selected_files files := by
      rw [add_files_spec]
    have hnew : (add_files st files).2 = firstSeen st.selected_files files := by
      rw [add_files_spec]
    constructor
    · show (run_add_calls (add_files st files).1 rest).1.selected_files
        = st.selected_files
          ++ ((add_files st files).2
              :: (run_add_calls (add_files st files).1 rest).2).flatten
      rw [h1, hsel, hnew, List.flatten_cons, List.append_assoc]
    · show ((add_files st files).2
          :: (run_add_calls (add_files st files).1 rest).2).flatten
        = firstSeen st.selected_files (files :: rest).flatten
      rw [List.flatten_cons, List.flatten_cons, h2, hsel, hnew, firstSeen_append]

/-- The extraction loop in closed form: starting from any accumulator it
adds one success or one error per item, in order. -/
theorem extract_go_spec (ffmpeg fmt : String) (od : Option String)
    (env : Nat → ItemEnv) :
    ∀ (files : List String) (idx cnt : Nat) (last : Option String)
      (errs : List String),
      extract_go ffmpeg fmt od env idx (cnt, last, errs) files
        = (cnt + (successPaths (item_outcomes ffmpeg fmt od env idx files)).length,
           (successPaths (item_outcomes ffmpeg fmt od env idx files)).foldl
             (fun _ p => some p) last,
           errs ++ failuresOf (item_outcomes ffmpeg fmt od env idx files))
  | [], idx, cnt, last, errs => by
    simp [extract_go, item_outcomes, successPaths, failuresOf]
  | f :: rest, idx, cnt, last, errs => by
    cases hpi : process_item ffmpeg fmt od (env idx) f with
    | success out =>
      simp only [extract_go, hpi, item_outcomes, successPaths, failuresOf]
      rw [extract_go_spec ffmpeg fmt od env rest (idx + 1) (cnt + 1) (some out) errs]
      have hc : cnt + 1
            + (successPaths (item_outcomes ffmpeg fmt od env (idx + 1) rest)).length
          = cnt
            + ((successPaths (item_outcomes ffmpeg fmt od env (idx + 1) rest)).length
               + 1) := by omega
      rw [hc]
      rfl
    | failure e =>
      simp only [extract_go, hpi, item_outcomes, successPaths, failuresOf]
      rw [extract_go_spec ffmpeg fmt od env rest (idx + 1) cnt last (errs ++ [e])]
      simp [List.append_assoc]

/-- Each item contributes to exactly one of the two tallies. -/
theorem successPaths_length_add :
    ∀ outs : List ItemOutcome,
      (successPaths outs).length + (failuresOf outs).length = outs.length
  | [] => rfl
  | .success p :: rest => by
    simp only [successPaths, failuresOf, List.length_cons]
    have := successPaths_length_add rest
    omega
  | .failure e :: rest => by
    simp only [successPaths, failuresOf, List.length_cons]
    have := successPaths_length_add rest
    omega

/-- One outcome per queued file. -/
theorem item_outcomes_length (ffmpeg fmt : String) (od : Option String)
    (env : Nat → ItemEnv) :
    ∀ (files : List String) (idx : Nat),
      (item_outcomes ffmpeg fmt od env idx files).length = files.length
  | [], _ => rfl
  | _ :: rest, idx => by
    simp only [item_outcomes, List.length_cons,
      item_outcomes_length ffmpeg fmt od env rest (idx + 1)]

/-- Every error string an item produces is prefixed by that item's queued
path followed by `": "`. -/
theorem process_item_failure_shape (ffmpeg fmt : String) (od : Option String)
    (env : ItemEnv) (f e : String)
    (h : process_item ffmpeg fmt od env f = .failure e) :
    ∃ m, e = f ++ ": " ++ m := by
  cases hm : env.mkdirFails with
  | some msg =>
    simp only [process_item, hm, ItemOutcome.failure.injEq] at h
    exact ⟨msg, h.symm⟩
  | none =>
    simp only [process_item, hm] at h
    cases hr : env.run (build_cmd ffmpeg f fmt (output_file_path od f fmt)) with
    | raised msg =>
      rw [hr] at h
      simp only [ItemOutcome.failure.injEq] at h
      exact ⟨msg, h.symm⟩
    | completed rc stderr =>
      simp only [hr] at h
      by_cases h0 : rc = 0
      · rw [if_pos h0] at h
        simp at h
      · rw [if_neg h0] at h
        simp only [ItemOutcome.failure.injEq] at h
        exact ⟨_, h.symm⟩

/-- Every recorded batch error names one of the queued files. -/
theorem mem_failuresOf_shape (ffmpeg fmt : String) (od : Option String)
    (env : Nat → ItemEnv) :
    ∀ (files : List String) (idx : Nat) (e : String),
      e ∈ failuresOf (item_outcomes ffmpeg fmt od env idx files) →
      ∃ f ∈ files, ∃ m, e = f ++ ": " ++ m
  | [], _, e => by simp [item_outcomes, failuresOf]
  | f :: rest, idx, e => by
    cases hpi : process_item ffmpeg fmt od (env idx) f with
    | success out =>
      simp only [item_outcomes, hpi, failuresOf]
      intro h
      obtain ⟨g, hg, m, hm⟩ := mem_failuresOf_shape ffmpeg fmt od env rest (idx + 1) e h
      exact ⟨g, List.mem_cons_of_mem _ hg, m, hm⟩
    | failure err =>
      simp only [item_outcomes, hpi, failuresOf]
      intro h
      rcases List.mem_cons.mp h with rfl | h2
      · obtain ⟨m, hm⟩ := process_item_failure_shape ffmpeg fmt od (env idx) f e hpi
        exact ⟨f, List.mem_cons_self f rest, m, hm⟩
      · obtain ⟨g, hg, m, hm⟩ := mem_failuresOf_shape ffmpeg fmt od env rest (idx + 1) e h2
        exact ⟨g, List.mem_cons_of_mem _ hg, m, hm⟩

/-- Nothing survives a filter that removes itself. -/
theorem not_mem_filter_ne (x : String) (l : List String) :
    x ∉ l.filter (fun d => d != x) := by
  intro h
  have h2 := List.mem_filter.mp h
  simp at h2

/-! ## Claims -/

/-- C1 (counterexample): on an empty queue `extract_audio_files` does not
fail with a `NoInputError`-style error; it returns the empty
`ExtractionResult` normally, before the transcoder check (here the
transcoder is not even configured). -/
theorem C1_counterexample :
    extract_audio_files initialState trivialEnv
      = .ok { success_count := 0, total_files := 0, last_output_path := none,
              errors := [] } := rfl

/-- C1 (amended): `extract_audio_files` aborts before processing any item
when a pre-flight condition fails — an empty queue returns the empty
`ExtractionResult` without error, and a non-empty queue with no located
transcoder binary fails with the tool-unavailable error.  In both cases
the result is the same for every per-item environment (no item is resolved
or transcoded), and the state — the queue included — is never mutated,
`extract_audio_files` being a pure function of it. -/
theorem C1_preflight (st : ControllerState) (env : Nat → ItemEnv) :
    (st.selected_files = [] →
      extract_audio_files st env
        = .ok { success_count := 0, total_files := 0, last_output_path := none,
                errors := [] })
    ∧ (st.selected_files ≠ [] → st.ffmpeg_path = none →
      extract_audio_files st env = .error .ffmpegNotConfigured) := by
  constructor
  · intro h
    simp [extract_audio_files, h]
  · intro hne hff
    have hlen : st.selected_files.length ≠ 0 :=
      fun h => hne (List.length_eq_zero.mp h)
    simp [extract_audio_files, hlen, hff]

/-- C1 (witness): the two pre-flight branches at concrete states. -/
theorem C1_witness :
    extract_audio_files initialState trivialEnv
      = .ok { success_count := 0, total_files := 0, last_output_path := none,
              errors := [] }
    ∧ extract_audio_files c1NoToolStateUnprobed trivialEnv
      = .error .ffmpegNotConfigured :=
  ⟨(C1_preflight initialState trivialEnv).1 rfl,
   (C1_preflight c1NoToolStateUnprobed trivialEnv).2 (by simp [c1NoToolStateUnprobed, c1NoToolState]) rfl⟩

/-- C2: once the pre-flight checks pass, every per-item outcome (transcode
failure or unexpected exception) is caught at the item boundary: the batch
always returns an `ExtractionResult`, its `errors` list is exactly the
per-item failures in queue order, each failing item contributes exactly
one entry recorded under its queued name, and every item is covered
(successes plus errors add up to the whole queue). -/
theorem C2_item_isolation (st : ControllerState) (env : Nat → ItemEnv)
    (bin : String) (hbin : st.ffmpeg_path = some bin)
    (hne : st.selected_files ≠ []) :
    ∃ r : ExtractionResult,
      extract_audio_files st env = .ok r
      ∧ r.total_files = st.selected_files.length
      ∧ r.errors = failuresOf (item_outcomes bin st.output_format
          (effective_output_dir st) env 1 st.selected_files)
      ∧ r.success_count + r.errors.length = r.total_files
      ∧ ∀ e ∈ r.errors, ∃ f ∈ st.selected_files, ∃ m, e = f ++ ": " ++ m := by
  have hlen : st.selected_files.length ≠ 0 :=
    fun h => hne (List.length_eq_zero.mp h)
  have hgo := extract_go_spec bin st.output_format (effective_output_dir st) env
    st.selected_files 1 0 none []
  refine ⟨⟨(successPaths (item_outcomes bin st.output_format
        (effective_output_dir st) env 1 st.selected_files)).length,
      st.selected_files.length,
      (successPaths (item_outcomes bin st.output_format
        (effective_output_dir st) env 1 st.selected_files)).foldl
        (fun _ p => some p) none,
      failuresOf (item_outcomes bin st.output_format
        (effective_output_dir st) env 1 st.selected_files)⟩,
    ?_, rfl, rfl, ?_, ?_⟩
  · simp only [extract_audio_files, hbin, if_neg hlen]
    rw [hgo]
    simp
  · show (successPaths _).length + (failuresOf _).length = st.selected_files.length
    rw [successPaths_length_add,
      item_outcomes_length bin st.output_format (effective_output_dir st) env]
  · intro e he
    exact mem_failuresOf_shape bin st.output_format (effective_output_dir st)
      env st.selected_files 1 e he

/-- C2 (witness): a two-item queue whose first item raises mid-processing
still yields a full result with one recorded error. -/
theorem C2_witness :
    ∃ r : ExtractionResult,
      extract_audio_files c2State c2Env = .ok r
      ∧ r.total_files = c2State.selected_files.length
      ∧ r.errors = failuresOf (item_outcomes "ffmpeg" c2State.output_format
          (effective_output_dir c2State) c2Env 1 c2State.selected_files)
      ∧ r.success_count + r.errors.length = r.total_files
      ∧ ∀ e ∈ r.errors, ∃ f ∈ c2State.selected_files, ∃ m, e = f ++ ": " ++ m :=
  C2_item_isolation c2State c2Env "ffmpeg" rfl (by simp [c2State])

/-- C3: on a queue of 3 local files where the transcoder exits 0 on items
1 and 3 and exits 1 on item 2, the batch returns success_count 2,
total_files 3, one error entry naming item 2 (its display name `b.mp4`
appears in the entry), and last_output_path equal to item 3's output path
as computed by the output-path rule. -/
theorem C3_three_file_batch :
    extract_audio_files c3State c3Env
      = .ok { success_count := 2, total_files := 3,
              last_output_path := some "/videos/c.mp3",
              errors := ["/videos/b.mp4: conversion failed"] }
    ∧ output_file_path none "/videos/c.mp4" "mp3" = "/videos/c.mp3"
    ∧ pathName "/videos/b.mp4" = "b.mp4"
    ∧ strContains "/videos/b.mp4: conversion failed" "b.mp4" = true :=
  ⟨rfl, rfl, rfl, rfl⟩

/-- C4: across any sequence of `add_files` calls the queue ends as the
initial queue followed by exactly the concatenated returns; the returns
keep precisely the first occurrence of each path not yet queued (so queue
order is first-seen order); a duplicate-free queue stays duplicate-free;
and each single call appends to the queue exactly the list it returns. -/
theorem C4_queue_invariants (st : ControllerState) (calls : List (List String)) :
    (run_add_calls st calls).1.selected_files
        = st.selected_files ++ ((run_add_calls st calls).2).flatten
    ∧ ((run_add_calls st calls).2).flatten
        = firstSeen st.selected_files calls.flatten
    ∧ (st.selected_files.Nodup → (run_add_calls st calls).1.selected_files.Nodup)
    ∧ ∀ files : List String,
        (add_files st files).1.selected_files
            = st.selected_files ++ (add_files st files).2
        ∧ (add_files st files).2 = firstSeen st.selected_files files := by
  obtain ⟨h1, h2⟩ := run_add_calls_spec calls st
  refine ⟨h1, h2, ?_, ?_⟩
  · intro hnd
    rw [h1, h2]
    exact nodup_append_firstSeen _ _ hnd
  · intro files
    rw [add_files_spec st files]
    exact ⟨rfl, rfl⟩

/-- C4 (witness): two overlapping calls from the empty queue. -/
theorem C4_witness :
    (run_add_calls initialState [["a", "b"], ["b", "c"]]).1.selected_files.Nodup :=
  (C4_queue_invariants initialState [["a", "b"], ["b", "c"]]).2.2.1 (by simp [initialState])

/-- C5 (counterexample): the claim fails at the empty folder argument.  On
a filesystem where `""` (i.e. the current directory, `Path("")`) exists
and contains one allow-listed file, `add_folder` neither raises nor
enumerates: the `if not folder` guard returns `([], 0)` although one
discoverable video exists. -/
theorem C5_counterexample :
    add_folder c5Fs initialState "" = (initialState, .ok ([], 0))
    ∧ c5Fs.dirExists "" = true
    ∧ (c5Fs.glob "").filter is_video_file = ["clip.mp4"] :=
  ⟨rfl, rfl, by decide⟩

/-- C5 (amended): for a non-empty folder argument, `add_folder` fails with
the not-found error when the folder does not exist, and otherwise
enumerates exactly the globbed entries whose lowercased suffix is in the
extension allow-list, adds those not already queued (in first-seen order),
and returns them with the total number of allow-listed files found; the
empty folder argument is a no-op returning `([], 0)`. -/
theorem C5_add_folder (fs : FileSystem) (st : ControllerState) (folder : String) :
    (folder = "" → add_folder fs st folder = (st, .ok ([], 0)))
    ∧ (folder ≠ "" → fs.dirExists folder = false →
        add_folder fs st folder = (st, .error (.folderNotFound folder)))
    ∧ (folder ≠ "" → fs.dirExists folder = true →
        add_folder fs st folder
            = ((add_files st ((fs.glob folder).filter is_video_file)).1,
               .ok ((add_files st ((fs.glob folder).filter is_video_file)).2,
                    ((fs.glob folder).filter is_video_file).length))
        ∧ (add_files st ((fs.glob folder).filter is_video_file)).2
            = firstSeen st.selected_files ((fs.glob folder).filter is_video_file)
        ∧ (add_files st ((fs.glob folder).filter is_video_file)).1.selected_files
            = st.selected_files
              ++ firstSeen st.selected_files ((fs.glob folder).filter is_video_file)) := by
  refine ⟨?_, ?_, ?_⟩
  · intro h
    simp [add_folder, h]
  · intro hne hex
    simp [add_folder, hne, hex]
  · intro hne hex
    refine ⟨?_, ?_, ?_⟩
    · simp [add_folder, hne, hex]
    · rw [add_files_spec]
    · rw [add_files_spec]

/-- C5 (witness): on a folder with two videos and a text file, both
videos are discovered and added and the text file is skipped; a missing
folder errors out. -/
theorem C5_witness :
    add_folder c5WitnessFs initialState "vids"
      = ({ initialState with selected_files := ["vids/a.mp4", "vids/b.MKV"] },
         .ok (["vids/a.mp4", "vids/b.MKV"], 2))
    ∧ add_folder c5WitnessFs initialState "missing"
      = (initialState, .error (.folderNotFound "missing")) := by
  refine ⟨?_, (C5_add_folder c5WitnessFs initialState "missing").2.1 (by simp) rfl⟩
  have h := ((C5_add_folder c5WitnessFs initialState "vids").2.2 (by simp) rfl).1
  rw [h]
  rfl

/-- C6: `set_output_format` accepts exactly the four formats, storing the
new value, and rejects anything else with a configuration error that
leaves the state — the previously configured format included — unchanged. -/
theorem C6_set_output_format (st : ControllerState) (fmt : String) :
    (fmt ∈ ["mp3", "wav", "flac", "aac"] →
      set_output_format st fmt = ({ st with output_format := fmt }, .ok ()))
    ∧ (fmt ∉ ["mp3", "wav", "flac", "aac"] →
      set_output_format st fmt = (st, .error (.unsupportedFormat fmt))) := by
  constructor
  · intro h
    fin_cases h <;> rfl
  · intro h
    simp only [List.mem_cons, List.not_mem_nil, or_false, not_or] at h
    obtain ⟨h1, h2, h3, h4⟩ := h
    have e1 : (fmt == "mp3") = false := beq_eq_false_iff_ne.mpr h1
    have e2 : (fmt == "wav") = false := beq_eq_false_iff_ne.mpr h2
    have e3 : (fmt == "flac") = false := beq_eq_false_iff_ne.mpr h3
    have e4 : (fmt == "aac") = false := beq_eq_false_iff_ne.mpr h4
    simp [set_output_format, AUDIO_CODECS, List.lookup, e1, e2, e3, e4]

/-- C6 (witness): `"flac"` is accepted and stored, `"ogg"` is rejected
with the state unchanged. -/
theorem C6_witness :
    set_output_format initialState "flac"
      = ({ initialState with output_format := "flac" }, .ok ())
    ∧ set_output_format initialState "ogg"
      = (initialState, .error (.unsupportedFormat "ogg")) :=
  ⟨(C6_set_output_format initialState "flac").1 (by simp),
   (C6_set_output_format initialState "ogg").2 (by simp)⟩

/-- C7 (counterexample): the claim fails at a nonzero exit with empty
captured stderr — the recorded diagnostic is then the fallback message
naming the exit code, not the captured stderr text (which is `""`). -/
theorem C7_counterexample :
    c7Env.run (build_cmd "ffmpeg" "/v/a.mp4" "mp3"
        (output_file_path none "/v/a.mp4" "mp3")) = .completed 1 ""
    ∧ process_item "ffmpeg" "mp3" none c7Env "/v/a.mp4"
        = .failure "/v/a.mp4: FFmpeg exited with code 1" :=
  ⟨rfl, rfl⟩

/-- C7 (amended): the transcoder is invoked with exactly
`[binary, "-i", input, "-vn", "-y", "-acodec", codec, output]` with the
codec per the `AUDIO_CODECS` mapping; the output path is the destination
directory (user destination if set, else the input's parent) joined with
the input's stem plus `"."` plus the format; exit code 0 is a success and
a nonzero exit code a failure whose diagnostic is the captured stderr when
non-empty, else a fallback message naming the exit code. -/
theorem C7_transcoder_invocation (bin input fmt out : String)
    (od : Option String) (env : ItemEnv) (codec : String) (rc : Int)
    (stderr : String)
    (hc : AUDIO_CODECS.lookup fmt = some codec)
    (hm : env.mkdirFails = none)
    (hr : env.run (build_cmd bin input fmt (output_file_path od input fmt))
        = .completed rc stderr) :
    build_cmd bin input fmt out
        = [bin, "-i", input, "-vn", "-y", "-acodec", codec, out]
    ∧ AUDIO_CODECS.lookup "mp3" = some "libmp3lame"
    ∧ AUDIO_CODECS.lookup "wav" = some "pcm_s16le"
    ∧ AUDIO_CODECS.lookup "flac" = some "flac"
    ∧ AUDIO_CODECS.lookup "aac" = some "aac"
    ∧ output_file_path od input fmt
        = joinPath (od.getD (pathParent input)) (pathStem input ++ "." ++ fmt)
    ∧ (rc = 0 → process_item bin fmt od env input
        = .success (output_file_path od input fmt))
    ∧ (rc ≠ 0 → process_item bin fmt od env input
        = .failure (input ++ ": "
            ++ (if stderr = "" then "FFmpeg exited with code " ++ toString rc
                else stderr))) := by
  refine ⟨?_, rfl, rfl, rfl, rfl, rfl, ?_, ?_⟩
  · simp [build_cmd, hc]
  · intro h0
    simp only [process_item, hm, hr, if_pos h0]
  · intro hne
    simp only [process_item, hm, hr, if_neg hne]

/-- C7 (witness): the `wav` invocation at a concrete input, and a failing
run whose non-empty stderr is the diagnostic. -/
theorem C7_witness :
    build_cmd "ffmpeg" "/v/a.mp4" "wav" "/o/a.wav"
        = ["ffmpeg", "-i", "/v/a.mp4", "-vn", "-y", "-acodec", "pcm_s16le",
           "/o/a.wav"]
    ∧ process_item "ffmpeg" "wav" none c7WEnv "/v/a.mp4"
        = .failure "/v/a.mp4: bad" := by
  have h := C7_transcoder_invocation "ffmpeg" "/v/a.mp4" "wav" "/o/a.wav" none
    c7WEnv "pcm_s16le" 1 "bad" rfl rfl rfl
  refine ⟨h.1, ?_⟩
  rw [h.2.2.2.2.2.2.2 (by decide)]
  decide

/-- C8: a URL is accepted iff its scheme is http or https, its host is
non-empty, and the host contains one of the recognized markers; the four
sample URLs behave as the claim states; a rejected URL is reported invalid
and leaves the queue unchanged. -/
theorem C8_url_validation (sel : List GuiRecord) (url : String) :
    (is_valid_youtube_url url = true ↔
      ((urlparse url).scheme = "http" ∨ (urlparse url).scheme = "https")
      ∧ (urlparse url).netloc ≠ ""
      ∧ (strContains (strLower (urlparse url).netloc) "youtube.com" = true
        ∨ strContains (strLower (urlparse url).netloc) "youtu.be" = true))
    ∧ is_valid_youtube_url "ftp://example.com/x" = false
    ∧ is_valid_youtube_url "https://example.org/x" = false
    ∧ is_valid_youtube_url "https://youtu.be/abc123" = true
    ∧ is_valid_youtube_url "https://www.youtube.com/watch?v=abc123" = true
    ∧ (is_valid_youtube_url (strStrip url) = false →
        add_youtube_link sel url = (sel, .invalid)) := by
  refine ⟨?_, by decide, by decide, by decide, by decide, ?_⟩
  · by_cases hA : (urlparse url).scheme = "http" <;>
      by_cases hB : (urlparse url).scheme = "https" <;>
      by_cases hC : (urlparse url).netloc = "" <;>
      simp_all [is_valid_youtube_url]
  · intro hbad
    simp [add_youtube_link, hbad]

/-- C8 (witness): the rejected ftp URL leaves an empty queue unchanged. -/
theorem C8_witness :
    add_youtube_link [] "ftp://example.com/x" = ([], .invalid) :=
  (C8_url_validation [] "ftp://example.com/x").2.2.2.2.2 (by decide)

/-- C9: for a remote item resolved with no user destination, any download
failure (downloader raised, no info, or unlocatable file) removes the
scratch directory created for the attempt before the error is raised —
the scratch directory is absent both right after the resolver returns and
after the item completes — and the item contributes no success and exactly
one recorded error. -/
theorem C9_failed_download_cleanup (ffmpeg fmt url cwd : String)
    (env : UrlItemEnv) (dirs : List String)
    (hfail : ∀ p, env.dl.outcome ≠ DlOutcome.finished p true) :
    (gui_url_item ffmpeg fmt url none env cwd dirs).succeeded = false
    ∧ (gui_url_item ffmpeg fmt url none env cwd dirs).error_events.length = 1
    ∧ env.dl.mkdtemp ∉ (gui_url_item ffmpeg fmt url none env cwd dirs).dirs
    ∧ env.dl.mkdtemp ∉ (download_youtube_audio env.dl none dirs).2
    ∧ ∃ msg, (download_youtube_audio env.dl none dirs).1
        = Except.error msg := by
  cases ho : env.dl.outcome with
  | finished p ex =>
    cases ex with
    | true => exact absurd ho (hfail p)
    | false =>
      refine ⟨?_, ?_, ?_, ?_, ?_⟩ <;>
        simp [gui_url_item, download_youtube_audio, ho, not_mem_filter_ne]
  | noInfo =>
    refine ⟨?_, ?_, ?_, ?_, ?_⟩ <;>
      simp [gui_url_item, download_youtube_audio, ho, not_mem_filter_ne]
  | raised msg =>
    refine ⟨?_, ?_, ?_, ?_, ?_⟩ <;>
      simp [gui_url_item, download_youtube_audio, ho, not_mem_filter_ne]

/-- C9 (witness): a concrete failed download attempt with a fresh scratch
directory leaves no scratch directory behind. -/
theorem C9_witness :
    (gui_url_item "ffmpeg" "mp3" "https://youtu.be/abc123" none c9Env "/cwd"
        ["/home"]).succeeded = false
    ∧ (gui_url_item "ffmpeg" "mp3" "https://youtu.be/abc123" none c9Env "/cwd"
        ["/home"]).error_events.length = 1
    ∧ c9Env.dl.mkdtemp ∉ (gui_url_item "ffmpeg" "mp3" "https://youtu.be/abc123"
        none c9Env "/cwd" ["/home"]).dirs
    ∧ c9Env.dl.mkdtemp ∉ (download_youtube_audio c9Env.dl none ["/home"]).2
    ∧ ∃ msg, (download_youtube_audio c9Env.dl none ["/home"]).1
        = Except.error msg :=
  C9_failed_download_cleanup "ffmpeg" "mp3" "https://youtu.be/abc123" "/cwd"
    c9Env ["/home"] (fun _ h => nomatch h)

/-- C10: every `ExtractionResult` the controller batch returns satisfies
`success_count + length errors = total_files` and `total_files` equals the
length of the queue at entry: each queued item contributes exactly one
success or exactly one error. -/
theorem C10_result_accounting (st : ControllerState) (env : Nat → ItemEnv)
    (r : ExtractionResult) (h : extract_audio_files st env = .ok r) :
    r.success_count + r.errors.length = r.total_files
    ∧ r.total_files = st.selected_files.length := by
  by_cases h0 : st.selected_files.length = 0
  · unfold extract_audio_files at h
    rw [if_pos h0] at h
    injection h with h2
    subst h2
    exact ⟨rfl, h0.symm⟩
  · cases hff : st.ffmpeg_path with
    | none =>
      unfold extract_audio_files at h
      rw [if_neg h0, hff] at h
      simp at h
    | some bin =>
      simp only [extract_audio_files, hff, if_neg h0] at h
      rw [extract_go_spec bin st.output_format (effective_output_dir st) env
        st.selected_files 1 0 none []] at h
      injection h with h2
      subst h2
      refine ⟨?_, rfl⟩
      show 0 + (successPaths _).length + ([] ++ failuresOf _).length = _
      rw [Nat.zero_add, List.nil_append, successPaths_length_add,
        item_outcomes_length bin st.output_format (effective_output_dir st) env]

/-- C10 (witness): a two-item batch with one failure satisfies the
accounting identity. -/
theorem C10_witness :
    ({ success_count := 1, total_files := 2, last_output_path := some "y.wav",
       errors := ["x.mp4: oops"] } : ExtractionResult).success_count
      + ({ success_count := 1, total_files := 2, last_output_path := some "y.wav",
           errors := ["x.mp4: oops"] } : ExtractionResult).errors.length
      = ({ success_count := 1, total_files := 2, last_output_path := some "y.wav",
           errors := ["x.mp4: oops"] } : ExtractionResult).total_files
    ∧ ({ success_count := 1, total_files := 2, last_output_path := some "y.wav",
         errors := ["x.mp4: oops"] } : ExtractionResult).total_files
      = c10State.selected_files.length :=
  C10_result_accounting c10State c10Env
    { success_count := 1, total_files := 2, last_output_path := some "y.wav",
      errors := ["x.mp4: oops"] } rfl

end SpeedTake
